import Mathlib

/-!
Shallow embedding of src/main.py, a transportation (minimum-cost network
flow) linear program written with pyomo, together with its sensitivity
interpretation code.  Sets are lists of identifiers, parameters are
functions, linear constraints are records of coefficient lists with a
sense and a right-hand side, and the reporting branch of
solve_problem_and_print_results is a function from solver results to a
report value.  Rational numbers stand for the real-valued data.
-/

namespace NetworkFlows

/-- Sense of a linear constraint: at most, at least, or equal. -/
inductive Sense
  | le
  | ge
  | eq
deriving DecidableEq, Repr

/-- Linear constraint: a list of (coefficient, variable index) terms, a
sense and a right-hand side.  Variable indices are (source, customer)
pairs, as in the pyomo model. -/
structure LinCons where
  terms : List (ℚ × (String × String))
  sense : Sense
  rhs : ℚ
deriving DecidableEq, Repr

/-- Value of the left-hand side of a list of terms at a flow assignment. -/
def evalTerms (terms : List (ℚ × (String × String))) (x : String × String → ℚ) : ℚ :=
  (terms.map fun t => t.1 * x t.2).sum

/-- Satisfaction of a linear constraint at a flow assignment. -/
def LinCons.sat (cns : LinCons) (x : String × String → ℚ) : Prop :=
  match cns.sense with
  | Sense.le => evalTerms cns.terms x ≤ cns.rhs
  | Sense.ge => cns.rhs ≤ evalTerms cns.terms x
  | Sense.eq => evalTerms cns.terms x = cns.rhs

/-- Sense of an objective. -/
inductive ObjSense
  | minimize
  | maximize
deriving DecidableEq, Repr

/-- An objective: a sense together with a list of (coefficient, variable
index) terms. -/
structure ObjectiveDef where
  sense : ObjSense
  terms : List (ℚ × (String × String))
deriving DecidableEq, Repr

/-- Problem data, mirroring the sets and parameters of create_model in
src/main.py: the source set sSources, the customer set sCustomers, the
arc set sSources_sCustomers, and the parameters pSourceProduction,
pCustomerDemand, pTransportationCosts and pFixedTransportation. -/
structure ProblemData where
  sSources : List String
  sCustomers : List String
  sSources_sCustomers : List (String × String)
  pSourceProduction : String → ℚ
  pCustomerDemand : String → ℚ
  pTransportationCosts : String × String → ℚ
  pFixedTransportation : String × String → ℚ

/-- Access to the parameter pFixedTransportation, which pyomo indexes by
the arc set sSources_sCustomers: reading it at an index outside that set
raises a key error, modelled as the error case of Except. -/
def pFixedTransportation_access (d : ProblemData) (p : String × String) : Except Unit ℚ :=
  if p ∈ d.sSources_sCustomers then Except.ok (d.pFixedTransportation p)
  else Except.error ()

/-- Rule c01_production_limit_satisfaction of src/main.py: for a source,
the sum of the flow variables over the customers whose pair with the
source is a declared arc is at most the production of the source. -/
def c01_production_limit_satisfaction (d : ProblemData) (iSource : String) : LinCons :=
  ⟨(d.sCustomers.filter fun iCustomer =>
      decide ((iSource, iCustomer) ∈ d.sSources_sCustomers)).map
    (fun iCustomer => ((1 : ℚ), (iSource, iCustomer))),
   Sense.le, d.pSourceProduction iSource⟩

/-- Rule c02_demand_limit_satisfaction of src/main.py: for a customer,
the sum of the flow variables over the sources whose pair with the
customer is a declared arc is at least the demand of the customer. -/
def c02_demand_limit_satisfaction (d : ProblemData) (iCustomer : String) : LinCons :=
  ⟨(d.sSources.filter fun iSource =>
      decide ((iSource, iCustomer) ∈ d.sSources_sCustomers)).map
    (fun iSource => ((1 : ℚ), (iSource, iCustomer))),
   Sense.ge, d.pCustomerDemand iCustomer⟩

/-- Rule c03_fixed_transportations of src/main.py: if the pair is a
declared arc and (short-circuiting on that membership test) the value of
pFixedTransportation at the pair is nonzero (python truthiness of the
numeric value), return the equality constraint flow == fixed value;
otherwise return Constraint.Skip, modelled as none.  The parameter is
only read after the membership test has succeeded, matching the python
conjunction. -/
def c03_fixed_transportations (d : ProblemData) (iSource iCustomer : String) :
    Except Unit (Option LinCons) :=
  if (iSource, iCustomer) ∈ d.sSources_sCustomers then
    match pFixedTransportation_access d (iSource, iCustomer) with
    | Except.error e => Except.error e
    | Except.ok fix =>
      if fix ≠ 0 then
        Except.ok (some ⟨[((1 : ℚ), (iSource, iCustomer))], Sense.eq, fix⟩)
      else Except.ok none
  else Except.ok none

/-- Objective rule obj_expression of src/main.py: the sum of
pTransportationCosts times the flow variable over the pairs of the
source-customer cross product that are declared arcs, in loop order
(sources outer, customers inner). -/
def obj_expression (d : ProblemData) : List (ℚ × (String × String)) :=
  ((d.sSources.product d.sCustomers).filter fun p =>
      decide (p ∈ d.sSources_sCustomers)).map
    (fun p => (d.pTransportationCosts p, p))

/-- The objective f_obj of the model: minimize obj_expression. -/
def f_obj (d : ProblemData) : ObjectiveDef :=
  ⟨ObjSense.minimize, obj_expression d⟩

/-- Index set of the flow variable vQuantityExchangedSourceCustomer: one
variable per declared arc. -/
def vQuantityExchangedSourceCustomer_index (d : ProblemData) : List (String × String) :=
  d.sSources_sCustomers

/-- The constraint family model.c01_production_limit_satisfaction,
indexed over sSources. -/
def c01_family (d : ProblemData) : List (String × LinCons) :=
  d.sSources.map fun iSource => (iSource, c01_production_limit_satisfaction d iSource)

/-- The constraint family model.c02_demand_limit_satisfaction, indexed
over sCustomers. -/
def c02_family (d : ProblemData) : List (String × LinCons) :=
  d.sCustomers.map fun iCustomer => (iCustomer, c02_demand_limit_satisfaction d iCustomer)

/-- The constraint family model.c03_fixed_transportations is indexed over
the full cross product sSources times sCustomers; the constraints it
actually holds are those pairs where the rule did not return Skip. -/
def c03_generated (d : ProblemData) : List ((String × String) × LinCons) :=
  (d.sSources.product d.sCustomers).filterMap fun p =>
    match c03_fixed_transportations d p.1 p.2 with
    | Except.ok (some cns) => some (p, cns)
    | _ => none

/-- A solver-ready concrete model instance: the flow variable index set,
the three constraint families and the objective. -/
structure ModelInstance where
  vars : List (String × String)
  c01 : List (String × LinCons)
  c02 : List (String × LinCons)
  c03 : List ((String × String) × LinCons)
  obj : ObjectiveDef
deriving DecidableEq, Repr

/-- Kinds of schema violation named by the specification. -/
inductive SchemaViolation
  | arcUnknownEndpoint (p : String × String)
  | negativeParameter
deriving DecidableEq, Repr

/-- Instance construction, modelling model.create_instance(data) in
solve_problem_and_print_results.  The source declares its sets and
parameters without any domain or validity restriction and its constraint
rules skip undeclared pairs, so construction succeeds on every input: no
validation is performed and no schema violation is ever raised. -/
def create_instance (d : ProblemData) : Except SchemaViolation ModelInstance :=
  Except.ok
    ⟨vQuantityExchangedSourceCustomer_index d, c01_family d, c02_family d,
     c03_generated d, f_obj d⟩

/-- Modelled from the spec: the schema validation of sections 4.1 and 7
of the specification (a SchemaViolation on an arc with an undeclared
endpoint, or on a negative productionCapacity, demand or fixedFlow).  No
such check exists anywhere in src/main.py; this definition follows the
words of the spec so that the two behaviours can be compared. -/
def schema_check_of_spec (d : ProblemData) : Bool :=
  decide ((∀ p ∈ d.sSources_sCustomers, p.1 ∈ d.sSources ∧ p.2 ∈ d.sCustomers) ∧
    (∀ s ∈ d.sSources, 0 ≤ d.pSourceProduction s) ∧
    (∀ c ∈ d.sCustomers, 0 ≤ d.pCustomerDemand c) ∧
    (∀ p ∈ d.sSources_sCustomers, 0 ≤ d.pFixedTransportation p))

/-- Direction of the cost change announced by a printed conclusion. -/
inductive Direction
  | reduced
  | increased
  | noChange
deriving DecidableEq, Repr

/-- Conclusion printed by print_conclusions_sources_sensibility_analysis:
for a negative shadow price the cost is reduced by the absolute value,
for a positive one it is increased by the shadow price, otherwise it
remains equal. -/
def print_conclusions_sources_sensibility_analysis (shadow_price : ℚ) : Direction × ℚ :=
  if shadow_price < 0 then (Direction.reduced, |shadow_price|)
  else if shadow_price > 0 then (Direction.increased, shadow_price)
  else (Direction.noChange, 0)

/-- Conclusion printed by
print_conclusions_customers_sensibility_analysis: the same three-way sign
classification and the same wording directions as the source case. -/
def print_conclusions_customers_sensibility_analysis (shadow_price : ℚ) : Direction × ℚ :=
  if shadow_price < 0 then (Direction.reduced, |shadow_price|)
  else if shadow_price > 0 then (Direction.increased, shadow_price)
  else (Direction.noChange, 0)

/-- Conclusion printed by print_conclusions_routes_sensibility_analysis:
the same three-way sign classification, applied to a reduced cost. -/
def print_conclusions_routes_sensibility_analysis (reduced_cost : ℚ) : Direction × ℚ :=
  if reduced_cost < 0 then (Direction.reduced, |reduced_cost|)
  else if reduced_cost > 0 then (Direction.increased, reduced_cost)
  else (Direction.noChange, 0)

/-- Solver output attached to the instance after the solve: the primal
flow values, the dual values of the two inequality constraint families
(the suffix dual, keyed by constraint) and the reduced costs (the suffix
rc, keyed by variable). -/
structure Solution where
  flows : String × String → ℚ
  dualC01 : String → ℚ
  dualC02 : String → ℚ
  rc : String × String → ℚ

/-- Shipped quantity of a source: the value of the body of its c01
constraint at the solved flows, as computed by
value(instance.c01_production_limit_satisfaction[iSource]). -/
def source_shipped (d : ProblemData) (x : String × String → ℚ) (s : String) : ℚ :=
  evalTerms (c01_production_limit_satisfaction d s).terms x

/-- Shipped quantity of a customer: the value of the body of its c02
constraint at the solved flows, as computed by
value(instance.c02_demand_limit_satisfaction[iCustomer]). -/
def customer_shipped (d : ProblemData) (x : String × String → ℚ) (c : String) : ℚ :=
  evalTerms (c02_demand_limit_satisfaction d c).terms x

/-- Row order of the routes tables: pairs of the source-customer cross
product that are declared arcs, in loop order. -/
def routes_pairs (d : ProblemData) : List (String × String) :=
  (d.sSources.product d.sCustomers).filter fun p => decide (p ∈ d.sSources_sCustomers)

/-- The table of quantities exchanged: declared pairs with positive
solved flow, with their flow value. -/
def quantity_table (d : ProblemData) (sol : Solution) : List ((String × String) × ℚ) :=
  ((d.sSources.product d.sCustomers).filter fun p =>
      decide (p ∈ d.sSources_sCustomers ∧ 0 < sol.flows p)).map
    (fun p => (p, sol.flows p))

/-- The sources sensibility table: source, capacity, shipped, shadow
price. -/
def sources_sensibility_table (d : ProblemData) (sol : Solution) :
    List (String × ℚ × ℚ × ℚ) :=
  d.sSources.map fun s =>
    (s, d.pSourceProduction s, source_shipped d sol.flows s, sol.dualC01 s)

/-- Conclusions for resources without slack: the rows of the sources
table whose capacity equals the shipped quantity, each mapped through
print_conclusions_sources_sensibility_analysis of its shadow price. -/
def sources_conclusions (d : ProblemData) (sol : Solution) :
    List (String × Direction × ℚ) :=
  (d.sSources.filter fun s =>
      decide (d.pSourceProduction s = source_shipped d sol.flows s)).map
    (fun s => (s, print_conclusions_sources_sensibility_analysis (sol.dualC01 s)))

/-- The customers sensibility table: customer, demand, shipped, shadow
price. -/
def customers_sensibility_table (d : ProblemData) (sol : Solution) :
    List (String × ℚ × ℚ × ℚ) :=
  d.sCustomers.map fun c =>
    (c, d.pCustomerDemand c, customer_shipped d sol.flows c, sol.dualC02 c)

/-- Conclusions for customer margin: the rows of the customers table
whose demand equals the shipped quantity, each mapped through
print_conclusions_customers_sensibility_analysis of its shadow price. -/
def customers_conclusions (d : ProblemData) (sol : Solution) :
    List (String × Direction × ℚ) :=
  (d.sCustomers.filter fun c =>
      decide (d.pCustomerDemand c = customer_shipped d sol.flows c)).map
    (fun c => (c, print_conclusions_customers_sensibility_analysis (sol.dualC02 c)))

/-- The routes sensibility table: (source, customer), quantity, reduced
cost, over the declared pairs. -/
def routes_sensibility_table (d : ProblemData) (sol : Solution) :
    List ((String × String) × ℚ × ℚ) :=
  (routes_pairs d).map fun p => (p, sol.flows p, sol.rc p)

/-- Conclusions for routes without quantity: the rows of the routes table
whose quantity is zero, each mapped through
print_conclusions_routes_sensibility_analysis of its reduced cost. -/
def routes_conclusions (d : ProblemData) (sol : Solution) :
    List ((String × String) × Direction × ℚ) :=
  ((routes_pairs d).filter fun p => decide (sol.flows p = 0)).map
    (fun p => (p, print_conclusions_routes_sensibility_analysis (sol.rc p)))

/-- Everything the optimal branch of solve_problem_and_print_results
prints after the status lines: total cost (instance.f_obj()), the
quantity table, and the three sensibility tables with their conclusions. -/
structure AnalysisOutput where
  totalCost : ℚ
  quantityTable : List ((String × String) × ℚ)
  sourcesTable : List (String × ℚ × ℚ × ℚ)
  sourcesConclusions : List (String × Direction × ℚ)
  customersTable : List (String × ℚ × ℚ × ℚ)
  customersConclusions : List (String × Direction × ℚ)
  routesTable : List ((String × String) × ℚ × ℚ)
  routesConclusions : List ((String × String) × Direction × ℚ)
deriving DecidableEq, Repr

/-- The sensitivity interpretation performed in the optimal branch. -/
def run_analysis (d : ProblemData) (sol : Solution) : AnalysisOutput :=
  ⟨evalTerms (f_obj d).terms sol.flows,
   quantity_table d sol,
   sources_sensibility_table d sol,
   sources_conclusions d sol,
   customers_sensibility_table d sol,
   customers_conclusions d sol,
   routes_sensibility_table d sol,
   routes_conclusions d sol⟩

/-- Solver status taxonomy used by the branch on results.solver.status. -/
inductive SolverStatus
  | ok
  | warning
  | error
  | aborted
  | unknown
deriving DecidableEq, Repr

/-- Termination condition taxonomy used by the branch on
results.solver.termination_condition. -/
inductive TerminationCondition
  | optimal
  | infeasible
  | unbounded
  | maxTimeLimit
  | other
deriving DecidableEq, Repr

/-- Solver results object: status, termination condition, and the full
text written by results.write(). -/
structure SolveResults where
  status : SolverStatus
  termination : TerminationCondition
  diagnostics : String
deriving DecidableEq, Repr

/-- What the printing part of solve_problem_and_print_results emits. -/
inductive Report
  | fullAnalysis (status : SolverStatus) (termination : TerminationCondition)
      (out : AnalysisOutput)
  | infeasibleReport (status : SolverStatus) (termination : TerminationCondition)
      (diagnostics : String)
  | plainReport (status : SolverStatus) (termination : TerminationCondition)
deriving DecidableEq, Repr

/-- The branch structure at the end of solve_problem_and_print_results:
if the termination condition is optimal and the status is ok, print the
full sensitivity analysis; otherwise if the termination condition is
infeasible, print status, termination condition and results.write();
otherwise print status and termination condition only. -/
def report_results (d : ProblemData) (res : SolveResults) (sol : Solution) : Report :=
  if res.termination = TerminationCondition.optimal ∧ res.status = SolverStatus.ok then
    Report.fullAnalysis res.status res.termination (run_analysis d sol)
  else if res.termination = TerminationCondition.infeasible then
    Report.infeasibleReport res.status res.termination res.diagnostics
  else
    Report.plainReport res.status res.termination

/-- Whole pipeline of solve_problem_and_print_results: build the
instance, hand it to the solver (an external collaborator, passed as a
function), and print the results.  The value none would mean formulation
failed before the solver was reached; since create_instance always
succeeds this never happens. -/
def solve_problem_and_print_results (d : ProblemData)
    (solver : ModelInstance → SolveResults × Solution) : Option Report :=
  match create_instance d with
  | Except.ok inst =>
    let rs := solver inst
    some (report_results d rs.1 rs.2)
  | Except.error _ => none

/-! Concrete example data.  wData is a minimal one-source one-customer
problem used to instantiate the theorems; exData follows the base
scenario of the repository (sources Arn and Gou, customers Ams, Ber and
Lon); exData2 has a source with no outgoing arcs and a customer with no
incoming arcs; badData is malformed. -/

/-- Identifier of the source Arn. -/
def sArn : String := "Arn"

/-- Identifier of the source Gou. -/
def sGou : String := "Gou"

/-- Identifier of the customer Ams. -/
def sAms : String := "Ams"

/-- Identifier of the customer Ber. -/
def sBer : String := "Ber"

/-- Identifier of the customer Lon. -/
def sLon : String := "Lon"

/-- Identifier of a customer with no incoming arcs. -/
def sPar : String := "Par"

/-- Identifier of the single source of wData. -/
def sS : String := "S"

/-- Identifier of the single customer of wData. -/
def sK : String := "K"

/-- Empty diagnostics text. -/
def noDiag : String := ""

/-- Minimal example data: one source of capacity 5, one customer of
demand 5, one declared arc with cost 2 and fixed transportation 1. -/
def wData : ProblemData :=
  ⟨[sS], [sK], [(sS, sK)],
   fun _ => 5, fun _ => 5, fun _ => 2, fun _ => 1⟩

/-- Solved values on wData where the single arc carries 5 units: the
source and the customer are both binding; the source dual is negative
and the customer dual is positive. -/
def wSol : Solution :=
  ⟨fun _ => 5, fun _ => -2, fun _ => 3, fun _ => 1⟩

/-- Solved values on wData where the customer is binding and the dual of
its demand constraint is negative. -/
def wSolNeg : Solution :=
  ⟨fun _ => 5, fun _ => 0, fun _ => -3, fun _ => 0⟩

/-- Solved values on wData where the single arc carries no flow and has
a negative reduced cost. -/
def wSolZero : Solution :=
  ⟨fun _ => 0, fun _ => 0, fun _ => 0, fun _ => -4⟩

/-- Base example data: two sources, three customers, four declared arcs,
a fixed transportation of 1 on the arc Arn to Ams. -/
def exData : ProblemData :=
  ⟨[sArn, sGou], [sAms, sBer, sLon],
   [(sArn, sAms), (sArn, sBer), (sGou, sAms), (sGou, sLon)],
   fun s => if s = sArn then 400 else 600,
   fun c => if c = sAms then 300 else if c = sBer then 200 else 100,
   fun p => if p = (sArn, sAms) then 1 else if p = (sArn, sBer) then 5
     else if p = (sGou, sAms) then 2 else 3,
   fun p => if p = (sArn, sAms) then 1 else 0⟩

/-- Example data with a source (Gou) that has no outgoing declared arcs
and a customer (Par) that has positive demand and no incoming declared
arcs. -/
def exData2 : ProblemData :=
  ⟨[sArn, sGou], [sAms, sPar], [(sArn, sAms)],
   fun _ => 400,
   fun c => if c = sAms then 300 else 50,
   fun _ => 1,
   fun _ => 0⟩

/-- Malformed example data: the arc (Gou, Ams) references the source Gou
which is not a member of sSources, and the demand values are negative. -/
def badData : ProblemData :=
  ⟨[sArn], [sAms], [(sArn, sAms), (sGou, sAms)],
   fun _ => 400,
   fun _ => -5,
   fun _ => 1,
   fun _ => 0⟩

/-- A trivial all-zero solution record. -/
def zeroSol : Solution :=
  ⟨fun _ => 0, fun _ => 0, fun _ => 0, fun _ => 0⟩

/-- A stub solver that declares the instance infeasible. -/
def stubInfeasibleSolver : ModelInstance → SolveResults × Solution :=
  fun _ => (⟨SolverStatus.warning, TerminationCondition.infeasible, noDiag⟩, zeroSol)

/-! Helper lemmas. -/

/-- In a list without duplicates, a member is counted exactly once. -/
theorem countP_eq_one_of_nodup_of_mem {l : List String} {s : String}
    (h : l.Nodup) (hs : s ∈ l) :
    l.countP (fun t => decide (t = s)) = 1 := by
  induction l with
  | nil => cases hs
  | cons a l ih =>
    rw [List.countP_cons]
    have hh := List.nodup_cons.mp h
    rcases List.mem_cons.mp hs with h1 | h1
    · have h0 : l.countP (fun t => decide (t = s)) = 0 := by
        rw [List.countP_eq_zero]
        intro b hb
        simp only [decide_eq_true_eq]
        rintro rfl
        exact hh.1 (h1 ▸ hb)
      have ha : a = s := h1.symm
      simp [h0, ha]
    · have hne : ¬(a = s) := by
        rintro rfl
        exact hh.1 h1
      rw [ih hh.2 h1]
      simp [hne]

/-- Evaluating a term list whose coefficients are all one sums the flow
values of the indexed variables. -/
theorem evalTerms_unit_map {α : Type} (l : List α) (f : α → String × String)
    (x : String × String → ℚ) :
    evalTerms (l.map fun a => ((1 : ℚ), f a)) x = (l.map fun a => x (f a)).sum := by
  simp [evalTerms, List.map_map, Function.comp_def]

/-- Two duplicate-free lists with the same members are permutations of
each other. -/
theorem perm_of_nodup_mem_iff {l₁ l₂ : List (String × String)}
    (h₁ : l₁.Nodup) (h₂ : l₂.Nodup) (h : ∀ p, p ∈ l₁ ↔ p ∈ l₂) : l₁.Perm l₂ :=
  List.perm_of_nodup_nodup_toFinset_eq h₁ h₂ (by
    ext p
    simp only [List.mem_toFinset]
    exact h p)

/-! Claim theorems. -/

/-- C1: a fixed-flow equality constraint (flow on the arc equal to the
fixed value) is produced by the c03 rule exactly when the pair is a
member of the declared arc set and its pFixedTransportation value is
nonzero; a pair failing either condition is skipped, contributing no
constraint at all. -/
theorem claim_C1 (d : ProblemData) (s c : String) :
    (c03_fixed_transportations d s c =
        Except.ok (some ⟨[((1 : ℚ), (s, c))], Sense.eq, d.pFixedTransportation (s, c)⟩) ↔
      ((s, c) ∈ d.sSources_sCustomers ∧ d.pFixedTransportation (s, c) ≠ 0)) ∧
    (¬((s, c) ∈ d.sSources_sCustomers ∧ d.pFixedTransportation (s, c) ≠ 0) →
      c03_fixed_transportations d s c = Except.ok none) := by
  by_cases hm : (s, c) ∈ d.sSources_sCustomers
  · by_cases h0 : d.pFixedTransportation (s, c) = 0
    · have hev : c03_fixed_transportations d s c = Except.ok none := by
        rw [c03_fixed_transportations, if_pos hm, pFixedTransportation_access, if_pos hm]
        simp [h0]
      refine ⟨⟨fun h => ?_, fun h => absurd h0 h.2⟩, fun _ => hev⟩
      rw [hev] at h
      simp at h
    · have hev : c03_fixed_transportations d s c =
          Except.ok (some ⟨[((1 : ℚ), (s, c))], Sense.eq, d.pFixedTransportation (s, c)⟩) := by
        rw [c03_fixed_transportations, if_pos hm, pFixedTransportation_access, if_pos hm]
        simp [h0]
      exact ⟨⟨fun _ => ⟨hm, h0⟩, fun _ => hev⟩, fun hn => absurd ⟨hm, h0⟩ hn⟩
  · have hev : c03_fixed_transportations d s c = Except.ok none := by
      rw [c03_fixed_transportations, if_neg hm]
    refine ⟨⟨fun h => ?_, fun h => absurd h.1 hm⟩, fun _ => hev⟩
    rw [hev] at h
    simp at h

/-- Witness for C1: on wData the declared arc (S, K) has fixed value 1,
so the rule produces the equality constraint; on exData the pair
(Arn, Ber) is declared with fixed value 0, so the rule skips it. -/
theorem claim_C1_witness :
    c03_fixed_transportations wData sS sK =
        Except.ok (some ⟨[((1 : ℚ), (sS, sK))], Sense.eq, 1⟩) ∧
    c03_fixed_transportations exData sArn sBer = Except.ok none := by
  constructor
  · have h := (claim_C1 wData sS sK).1.mpr (by decide)
    simpa [wData] using h
  · exact (claim_C1 exData sArn sBer).2 (by decide)

/-- C10: for a pair outside the declared arc set the c03 rule returns
Skip without reading pFixedTransportation (reading it there would raise
a key error, yet the rule returns an ok value), so no error occurs, the
full cross-product constraint family holds no constraint at that pair,
and no flow variable exists for it. -/
theorem claim_C10 (d : ProblemData) (s c : String)
    (h : (s, c) ∉ d.sSources_sCustomers) :
    c03_fixed_transportations d s c = Except.ok none ∧
    pFixedTransportation_access d (s, c) = Except.error () ∧
    (∀ e ∈ c03_generated d, e.1 ≠ (s, c)) ∧
    (s, c) ∉ vQuantityExchangedSourceCustomer_index d := by
  refine ⟨?_, ?_, ?_, h⟩
  · rw [c03_fixed_transportations, if_neg h]
  · rw [pFixedTransportation_access, if_neg h]
  · intro e he
    rcases List.mem_filterMap.mp he with ⟨p, _, hp⟩
    intro hec
    have hps : p = (s, c) := by
      rcases hc3 : c03_fixed_transportations d p.1 p.2 with e1 | o
      · rw [hc3] at hp
        cases hp
      · rw [hc3] at hp
        cases o with
        | none => cases hp
        | some cns =>
          simp only [Option.some.injEq] at hp
          rw [← hp] at hec
          exact hec
    rw [hps] at hp
    have h0 : c03_fixed_transportations d s c = Except.ok none := by
      rw [c03_fixed_transportations, if_neg h]
    rw [h0] at hp
    cases hp

/-- Witness for C10: the pair (Arn, Lon) of exData is not a declared
arc; the rule skips it, the parameter access at that pair would error,
and no variable or generated constraint exists for it. -/
theorem claim_C10_witness :
    c03_fixed_transportations exData sArn sLon = Except.ok none ∧
    pFixedTransportation_access exData (sArn, sLon) = Except.error () ∧
    (∀ e ∈ c03_generated exData, e.1 ≠ (sArn, sLon)) ∧
    (sArn, sLon) ∉ vQuantityExchangedSourceCustomer_index exData :=
  claim_C10 exData sArn sLon (by decide)

/-- C9: the full sensitivity interpretation is produced exactly when the
termination condition is optimal and the solver status is ok; an
infeasible termination condition is reported with status, termination
condition and the diagnostics text verbatim, with no analysis attached;
every other non-optimal outcome is reported with status and termination
condition only, including an optimal termination condition paired with a
status other than ok. -/
theorem claim_C9 (d : ProblemData) (res : SolveResults) (sol : Solution) :
    ((∃ out, report_results d res sol =
        Report.fullAnalysis res.status res.termination out) ↔
      (res.termination = TerminationCondition.optimal ∧ res.status = SolverStatus.ok)) ∧
    (res.termination = TerminationCondition.infeasible →
      report_results d res sol =
        Report.infeasibleReport res.status res.termination res.diagnostics) ∧
    (res.termination ≠ TerminationCondition.optimal →
      res.termination ≠ TerminationCondition.infeasible →
      report_results d res sol = Report.plainReport res.status res.termination) ∧
    (res.termination = TerminationCondition.optimal → res.status ≠ SolverStatus.ok →
      report_results d res sol = Report.plainReport res.status res.termination) := by
  by_cases hopt : res.termination = TerminationCondition.optimal ∧
      res.status = SolverStatus.ok
  · rw [report_results, if_pos hopt]
    refine ⟨⟨fun _ => hopt, fun _ => ⟨run_analysis d sol, rfl⟩⟩, ?_, ?_, ?_⟩
    · intro hinf
      rw [hopt.1] at hinf
      cases hinf
    · intro hno _
      exact absurd hopt.1 hno
    · intro _ hno
      exact absurd hopt.2 hno
  · rw [report_results, if_neg hopt]
    by_cases hinf : res.termination = TerminationCondition.infeasible
    · rw [if_pos hinf]
      refine ⟨⟨fun h => ?_, fun h => absurd h hopt⟩, fun _ => rfl, ?_, ?_⟩
      · rcases h with ⟨out, hout⟩
        cases hout
      · intro _ hno
        exact absurd hinf hno
      · intro hterm _
        rw [hterm] at hinf
        cases hinf
    · rw [if_neg hinf]
      refine ⟨⟨fun h => ?_, fun h => absurd h hopt⟩, fun h => absurd h hinf,
        fun _ _ => rfl, fun _ _ => rfl⟩
      rcases h with ⟨out, hout⟩
      cases hout

/-- Witness for C9: an infeasible outcome is reported with its verbatim
diagnostics and no analysis, and an unbounded outcome is reported with
status and termination condition only. -/
theorem claim_C9_witness :
    report_results wData
        ⟨SolverStatus.warning, TerminationCondition.infeasible, noDiag⟩ zeroSol =
      Report.infeasibleReport SolverStatus.warning TerminationCondition.infeasible noDiag ∧
    report_results wData
        ⟨SolverStatus.ok, TerminationCondition.unbounded, noDiag⟩ zeroSol =
      Report.plainReport SolverStatus.ok TerminationCondition.unbounded :=
  ⟨(claim_C9 wData ⟨SolverStatus.warning, TerminationCondition.infeasible, noDiag⟩
      zeroSol).2.1 rfl,
   (claim_C9 wData ⟨SolverStatus.ok, TerminationCondition.unbounded, noDiag⟩
      zeroSol).2.2.1 (by decide) (by decide)⟩

/-- C3 counterexample: badData is malformed in the sense of the spec
(the arc (Gou, Ams) references a source that is not declared, and the
demands are negative), yet formulation does not fail with any schema
violation: create_instance returns an instance that still contains a
flow variable for the bad arc, and the pipeline reaches the solver,
whose outcome is then reported. -/
theorem claim_C3_counterexample :
    schema_check_of_spec badData = false ∧
    (∃ inst, create_instance badData = Except.ok inst ∧ (sGou, sAms) ∈ inst.vars) ∧
    solve_problem_and_print_results badData stubInfeasibleSolver =
      some (Report.infeasibleReport SolverStatus.warning
        TerminationCondition.infeasible noDiag) :=
  ⟨by decide, ⟨_, rfl, by decide⟩, rfl⟩

/-- C3 amended: formulation never fails, because src/main.py performs no
schema validation at all.  For data with an arc whose source endpoint is
not a declared source, create_instance still succeeds and the arc keeps
its flow variable (the bad arc is not dropped), while that variable
occurs in no constraint and in no objective term of the produced
instance; the instance is then handed to the solver. -/
theorem claim_C3_amended (d : ProblemData) (s c : String)
    (hmem : (s, c) ∈ d.sSources_sCustomers) (hs : s ∉ d.sSources) :
    ∃ inst, create_instance d = Except.ok inst ∧
      (s, c) ∈ inst.vars ∧
      (∀ e ∈ inst.c01, ∀ t ∈ e.2.terms, t.2 ≠ (s, c)) ∧
      (∀ e ∈ inst.c02, ∀ t ∈ e.2.terms, t.2 ≠ (s, c)) ∧
      (∀ e ∈ inst.c03, e.1 ≠ (s, c)) ∧
      (∀ t ∈ inst.obj.terms, t.2 ≠ (s, c)) := by
  refine ⟨_, rfl, hmem, ?_, ?_, ?_, ?_⟩
  · intro e he t ht
    rcases List.mem_map.mp he with ⟨a, ha, rfl⟩
    rcases List.mem_map.mp ht with ⟨b, hb, rfl⟩
    intro hcontra
    have ha2 : a = s := congrArg Prod.fst hcontra
    exact hs (ha2 ▸ ha)
  · intro e he t ht
    rcases List.mem_map.mp he with ⟨a, ha, rfl⟩
    rcases List.mem_map.mp ht with ⟨b, hb, rfl⟩
    intro hcontra
    have hbmem : b ∈ d.sSources := List.mem_of_mem_filter hb
    have hb2 : b = s := congrArg Prod.fst hcontra
    exact hs (hb2 ▸ hbmem)
  · intro e he
    rcases List.mem_filterMap.mp he with ⟨p, hp, hmatch⟩
    have he1 : e.1 = p := by
      rcases hc3 : c03_fixed_transportations d p.1 p.2 with e1 | o
      · rw [hc3] at hmatch
        cases hmatch
      · rw [hc3] at hmatch
        cases o with
        | none => cases hmatch
        | some cns =>
          simp only [Option.some.injEq] at hmatch
          rw [← hmatch]
    intro hcontra
    have hpsc : p = (s, c) := he1.symm.trans hcontra
    rcases p with ⟨p1, p2⟩
    have hp1 : p1 ∈ d.sSources := (List.mem_product.mp hp).1
    have hp1s : p1 = s := congrArg Prod.fst hpsc
    exact hs (hp1s ▸ hp1)
  · intro t ht
    rcases List.mem_map.mp ht with ⟨p, hp, rfl⟩
    intro hcontra
    have hp2 : p ∈ d.sSources.product d.sCustomers := List.mem_of_mem_filter hp
    rcases p with ⟨p1, p2⟩
    have hp1 : p1 ∈ d.sSources := (List.mem_product.mp hp2).1
    have hp1s : p1 = s := congrArg Prod.fst hcontra
    exact hs (hp1s ▸ hp1)

/-- Witness for the amended C3: instantiated on badData and its bad arc
(Gou, Ams). -/
theorem claim_C3_amended_witness :
    ∃ inst, create_instance badData = Except.ok inst ∧
      (sGou, sAms) ∈ inst.vars ∧
      (∀ e ∈ inst.c01, ∀ t ∈ e.2.terms, t.2 ≠ (sGou, sAms)) ∧
      (∀ e ∈ inst.c02, ∀ t ∈ e.2.terms, t.2 ≠ (sGou, sAms)) ∧
      (∀ e ∈ inst.c03, e.1 ≠ (sGou, sAms)) ∧
      (∀ t ∈ inst.obj.terms, t.2 ≠ (sGou, sAms)) :=
  claim_C3_amended badData sGou sAms (by decide) (by decide)

/-- The term indices of the c01 constraint of a source enumerate, up to
order, the declared arcs leaving that source. -/
theorem outgoing_perm (d : ProblemData) (s : String)
    (h2 : d.sCustomers.Nodup) (h3 : d.sSources_sCustomers.Nodup)
    (hint : ∀ p ∈ d.sSources_sCustomers, p.2 ∈ d.sCustomers) :
    ((d.sCustomers.filter fun c => decide ((s, c) ∈ d.sSources_sCustomers)).map
        fun c => (s, c)).Perm
      (d.sSources_sCustomers.filter fun p => decide (p.1 = s)) := by
  apply perm_of_nodup_mem_iff
  · refine List.Nodup.map ?_ (h2.filter _)
    intro a b hab
    exact ((Prod.mk.injEq _ _ _ _).mp hab).2
  · exact h3.filter _
  · rintro ⟨a, b⟩
    simp only [List.mem_map, List.mem_filter, decide_eq_true_eq, Prod.mk.injEq]
    constructor
    · rintro ⟨c, ⟨_, hm⟩, rfl, rfl⟩
      exact ⟨hm, rfl⟩
    · rintro ⟨hm, rfl⟩
      exact ⟨b, ⟨hint (a, b) hm, hm⟩, rfl, rfl⟩

/-- The term indices of the c02 constraint of a customer enumerate, up
to order, the declared arcs entering that customer. -/
theorem incoming_perm (d : ProblemData) (c : String)
    (h1 : d.sSources.Nodup) (h3 : d.sSources_sCustomers.Nodup)
    (hint : ∀ p ∈ d.sSources_sCustomers, p.1 ∈ d.sSources) :
    ((d.sSources.filter fun a => decide ((a, c) ∈ d.sSources_sCustomers)).map
        fun a => (a, c)).Perm
      (d.sSources_sCustomers.filter fun p => decide (p.2 = c)) := by
  apply perm_of_nodup_mem_iff
  · refine List.Nodup.map ?_ (h1.filter _)
    intro a b hab
    exact ((Prod.mk.injEq _ _ _ _).mp hab).1
  · exact h3.filter _
  · rintro ⟨a, b⟩
    simp only [List.mem_map, List.mem_filter, decide_eq_true_eq, Prod.mk.injEq]
    constructor
    · rintro ⟨v, ⟨_, hm⟩, rfl, rfl⟩
      exact ⟨hm, rfl⟩
    · rintro ⟨hm, rfl⟩
      exact ⟨a, ⟨hint (a, b) hm, hm⟩, rfl, rfl⟩

/-- The pairs of the source-customer cross product that are declared
arcs enumerate, up to order, the declared arc set itself. -/
theorem product_filter_perm (d : ProblemData)
    (h1 : d.sSources.Nodup) (h2 : d.sCustomers.Nodup)
    (h3 : d.sSources_sCustomers.Nodup)
    (hint : ∀ p ∈ d.sSources_sCustomers, p.1 ∈ d.sSources ∧ p.2 ∈ d.sCustomers) :
    ((d.sSources.product d.sCustomers).filter fun p =>
        decide (p ∈ d.sSources_sCustomers)).Perm d.sSources_sCustomers := by
  apply perm_of_nodup_mem_iff ((h1.product h2).filter _) h3
  rintro ⟨a, b⟩
  simp only [List.mem_filter, List.mem_product, decide_eq_true_eq]
  constructor
  · rintro ⟨_, hm⟩
    exact hm
  · intro hm
    exact ⟨⟨(hint (a, b) hm).1, (hint (a, b) hm).2⟩, hm⟩

/-- C4: every source gets exactly one capacity constraint, stating that
the sum of the flows over the declared arcs leaving it is at most its
production capacity; with no outgoing declared arcs the left-hand side
is the empty sum 0, and the constraint is trivially satisfied for a
non-negative capacity. -/
theorem claim_C4 (d : ProblemData)
    (h1 : d.sSources.Nodup) (h2 : d.sCustomers.Nodup)
    (h3 : d.sSources_sCustomers.Nodup)
    (hint : ∀ p ∈ d.sSources_sCustomers, p.2 ∈ d.sCustomers)
    (s : String) (hs : s ∈ d.sSources) :
    (c01_family d).countP (fun e => decide (e.1 = s)) = 1 ∧
    (s, c01_production_limit_satisfaction d s) ∈ c01_family d ∧
    (c01_production_limit_satisfaction d s).sense = Sense.le ∧
    (c01_production_limit_satisfaction d s).rhs = d.pSourceProduction s ∧
    (∀ x, evalTerms (c01_production_limit_satisfaction d s).terms x =
      ((d.sSources_sCustomers.filter fun p => decide (p.1 = s)).map x).sum) ∧
    ((∀ p ∈ d.sSources_sCustomers, p.1 ≠ s) →
      (∀ x, evalTerms (c01_production_limit_satisfaction d s).terms x = 0) ∧
      (0 ≤ d.pSourceProduction s →
        ∀ x, (c01_production_limit_satisfaction d s).sat x)) := by
  have heval : ∀ x, evalTerms (c01_production_limit_satisfaction d s).terms x =
      ((d.sSources_sCustomers.filter fun p => decide (p.1 = s)).map x).sum := by
    intro x
    rw [c01_production_limit_satisfaction]
    rw [evalTerms_unit_map]
    have hperm := ((outgoing_perm d s h2 h3 hint).map x).sum_eq
    rw [← hperm, List.map_map]
    rfl
  refine ⟨?_, ?_, rfl, rfl, heval, ?_⟩
  · rw [c01_family, List.countP_map]
    exact countP_eq_one_of_nodup_of_mem h1 hs
  · exact List.mem_map.mpr ⟨s, hs, rfl⟩
  · intro hno
    have hzero : ∀ x, evalTerms (c01_production_limit_satisfaction d s).terms x = 0 := by
      intro x
      rw [heval x]
      have hempty : (d.sSources_sCustomers.filter fun p => decide (p.1 = s)) = [] := by
        rw [List.filter_eq_nil_iff]
        intro p hp
        simp only [decide_eq_true_eq]
        exact hno p hp
      rw [hempty]
      rfl
    refine ⟨hzero, fun hcap x => ?_⟩
    show evalTerms (c01_production_limit_satisfaction d s).terms x ≤ d.pSourceProduction s
    rw [hzero x]
    exact hcap

/-- Witness for C4: on exData2, the source Gou has no outgoing declared
arcs; it still gets exactly one capacity constraint, of sense at-most,
whose left-hand side evaluates to 0 at every assignment and which every
assignment satisfies. -/
theorem claim_C4_witness :
    (c01_family exData2).countP (fun e => decide (e.1 = sGou)) = 1 ∧
    (c01_production_limit_satisfaction exData2 sGou).sense = Sense.le ∧
    (∀ x, evalTerms (c01_production_limit_satisfaction exData2 sGou).terms x = 0) ∧
    (∀ x, (c01_production_limit_satisfaction exData2 sGou).sat x) := by
  have h := claim_C4 exData2 (by decide) (by decide) (by decide) (by decide) sGou (by decide)
  exact ⟨h.1, h.2.2.1, (h.2.2.2.2.2 (by decide)).1,
    (h.2.2.2.2.2 (by decide)).2 (by decide)⟩

/-- C5: every customer gets exactly one demand constraint, stating that
the sum of the flows over the declared arcs entering it is at least its
demand; a customer with no incoming declared arcs and positive demand
still gets its constraint, which no assignment satisfies (0 at least a
positive demand), so the infeasibility is left for the solver to
surface. -/
theorem claim_C5 (d : ProblemData)
    (h1 : d.sSources.Nodup) (h2 : d.sCustomers.Nodup)
    (h3 : d.sSources_sCustomers.Nodup)
    (hint : ∀ p ∈ d.sSources_sCustomers, p.1 ∈ d.sSources)
    (c : String) (hc : c ∈ d.sCustomers) :
    (c02_family d).countP (fun e => decide (e.1 = c)) = 1 ∧
    (c, c02_demand_limit_satisfaction d c) ∈ c02_family d ∧
    (c02_demand_limit_satisfaction d c).sense = Sense.ge ∧
    (c02_demand_limit_satisfaction d c).rhs = d.pCustomerDemand c ∧
    (∀ x, evalTerms (c02_demand_limit_satisfaction d c).terms x =
      ((d.sSources_sCustomers.filter fun p => decide (p.2 = c)).map x).sum) ∧
    ((∀ p ∈ d.sSources_sCustomers, p.2 ≠ c) → 0 < d.pCustomerDemand c →
      (c, c02_demand_limit_satisfaction d c) ∈ c02_family d ∧
      ∀ x, ¬(c02_demand_limit_satisfaction d c).sat x) := by
  have heval : ∀ x, evalTerms (c02_demand_limit_satisfaction d c).terms x =
      ((d.sSources_sCustomers.filter fun p => decide (p.2 = c)).map x).sum := by
    intro x
    rw [c02_demand_limit_satisfaction]
    rw [evalTerms_unit_map]
    have hperm := ((incoming_perm d c h1 h3 hint).map x).sum_eq
    rw [← hperm, List.map_map]
    rfl
  have hmem : (c, c02_demand_limit_satisfaction d c) ∈ c02_family d :=
    List.mem_map.mpr ⟨c, hc, rfl⟩
  refine ⟨?_, hmem, rfl, rfl, heval, ?_⟩
  · rw [c02_family, List.countP_map]
    exact countP_eq_one_of_nodup_of_mem h2 hc
  · intro hno hpos
    refine ⟨hmem, fun x hsat => ?_⟩
    have hzero : evalTerms (c02_demand_limit_satisfaction d c).terms x = 0 := by
      rw [heval x]
      have hempty : (d.sSources_sCustomers.filter fun p => decide (p.2 = c)) = [] := by
        rw [List.filter_eq_nil_iff]
        intro p hp
        simp only [decide_eq_true_eq]
        exact hno p hp
      rw [hempty]
      rfl
    have hsat2 : d.pCustomerDemand c ≤ evalTerms (c02_demand_limit_satisfaction d c).terms x :=
      hsat
    rw [hzero] at hsat2
    exact absurd hsat2 (not_le.mpr hpos)

/-- Witness for C5: on exData2, the customer Par has demand 50 and no
incoming declared arcs; it still gets exactly one demand constraint, of
sense at-least, and the all-zero assignment does not satisfy it. -/
theorem claim_C5_witness :
    (c02_family exData2).countP (fun e => decide (e.1 = sPar)) = 1 ∧
    (c02_demand_limit_satisfaction exData2 sPar).sense = Sense.ge ∧
    (sPar, c02_demand_limit_satisfaction exData2 sPar) ∈ c02_family exData2 ∧
    ¬(c02_demand_limit_satisfaction exData2 sPar).sat zeroSol.flows := by
  have h := claim_C5 exData2 (by decide) (by decide) (by decide) (by decide) sPar (by decide)
  exact ⟨h.1, h.2.2.1, (h.2.2.2.2.2 (by decide) (by decide)).1,
    (h.2.2.2.2.2 (by decide) (by decide)).2 zeroSol.flows⟩

/-- C6: the objective minimizes the sum, over exactly the declared arcs,
of the unit cost times the flow, and the total reported after an optimal
solve (instance.f_obj(), the totalCost field of the analysis) is the
recomputation of that very sum from the solved flow values. -/
theorem claim_C6 (d : ProblemData)
    (h1 : d.sSources.Nodup) (h2 : d.sCustomers.Nodup)
    (h3 : d.sSources_sCustomers.Nodup)
    (hint : ∀ p ∈ d.sSources_sCustomers, p.1 ∈ d.sSources ∧ p.2 ∈ d.sCustomers) :
    (f_obj d).sense = ObjSense.minimize ∧
    (∀ x, evalTerms (f_obj d).terms x =
      (d.sSources_sCustomers.map fun p => d.pTransportationCosts p * x p).sum) ∧
    (∀ sol : Solution, (run_analysis d sol).totalCost =
      (d.sSources_sCustomers.map fun p =>
        d.pTransportationCosts p * sol.flows p).sum) := by
  have heval : ∀ x, evalTerms (f_obj d).terms x =
      (d.sSources_sCustomers.map fun p => d.pTransportationCosts p * x p).sum := by
    intro x
    rw [f_obj, obj_expression, evalTerms, List.map_map]
    have hperm := ((product_filter_perm d h1 h2 h3 hint).map
      (fun p => d.pTransportationCosts p * x p)).sum_eq
    rw [← hperm]
    rfl
  exact ⟨rfl, heval, fun sol => heval sol.flows⟩

/-- Witness for C6: instantiated on exData2 with the all-zero solution. -/
theorem claim_C6_witness :
    (f_obj exData2).sense = ObjSense.minimize ∧
    (run_analysis exData2 zeroSol).totalCost =
      (exData2.sSources_sCustomers.map fun p =>
        exData2.pTransportationCosts p * zeroSol.flows p).sum := by
  have h := claim_C6 exData2 (by decide) (by decide) (by decide) (by decide)
  exact ⟨h.1, h.2.2 zeroSol⟩

/-- On wData, the shipped quantity of the single source is the flow on
its single arc. -/
theorem wData_source_shipped (x : String × String → ℚ) :
    source_shipped wData x sS = x (sS, sK) := by
  simp [source_shipped, c01_production_limit_satisfaction, evalTerms, wData]

/-- On wData, the shipped quantity of the single customer is the flow on
its single arc. -/
theorem wData_customer_shipped (x : String × String → ℚ) :
    customer_shipped wData x sK = x (sS, sK) := by
  simp [customer_shipped, c02_demand_limit_satisfaction, evalTerms, wData]

/-- Membership in the routes table rows is membership in the declared
arc set, when every arc has declared endpoints. -/
theorem mem_routes_pairs (d : ProblemData)
    (hint : ∀ p ∈ d.sSources_sCustomers, p.1 ∈ d.sSources ∧ p.2 ∈ d.sCustomers)
    (p : String × String) :
    p ∈ routes_pairs d ↔ p ∈ d.sSources_sCustomers := by
  rw [routes_pairs]
  constructor
  · intro hp
    exact of_decide_eq_true (List.mem_filter.mp hp).2
  · intro hp
    refine List.mem_filter.mpr ⟨?_, decide_eq_true hp⟩
    rcases p with ⟨a, b⟩
    exact List.mem_product.mpr ⟨(hint (a, b) hp).1, (hint (a, b) hp).2⟩

/-- C7: a narrative conclusion is emitted for a source exactly when the
source is binding, that is, its declared capacity equals its shipped
quantity under exact equality; and for a binding source the conclusion
follows the three-way sign classification of the dual value of its
capacity constraint: negative means reduced by the absolute value,
positive means increased by the value (reported verbatim), zero means no
change. -/
theorem claim_C7 (d : ProblemData) (sol : Solution) :
    (∀ s, (∃ e ∈ sources_conclusions d sol, e.1 = s) ↔
      (s ∈ d.sSources ∧ d.pSourceProduction s = source_shipped d sol.flows s)) ∧
    (∀ s, s ∈ d.sSources → d.pSourceProduction s = source_shipped d sol.flows s →
      (sol.dualC01 s < 0 →
        (s, Direction.reduced, |sol.dualC01 s|) ∈ sources_conclusions d sol) ∧
      (0 < sol.dualC01 s →
        (s, Direction.increased, sol.dualC01 s) ∈ sources_conclusions d sol) ∧
      (sol.dualC01 s = 0 →
        (s, Direction.noChange, 0) ∈ sources_conclusions d sol)) := by
  constructor
  · intro s
    constructor
    · rintro ⟨e, he, rfl⟩
      rcases List.mem_map.mp he with ⟨a, ha, rfl⟩
      have h2 := List.mem_filter.mp ha
      exact ⟨h2.1, of_decide_eq_true h2.2⟩
    · rintro ⟨hmem, hbind⟩
      exact ⟨(s, print_conclusions_sources_sensibility_analysis (sol.dualC01 s)),
        List.mem_map.mpr ⟨s, List.mem_filter.mpr ⟨hmem, decide_eq_true hbind⟩, rfl⟩, rfl⟩
  · intro s hmem hbind
    have hfil : s ∈ d.sSources.filter (fun a =>
        decide (d.pSourceProduction a = source_shipped d sol.flows a)) :=
      List.mem_filter.mpr ⟨hmem, decide_eq_true hbind⟩
    refine ⟨fun hneg => ?_, fun hpos => ?_, fun hzer => ?_⟩
    · have hpr : print_conclusions_sources_sensibility_analysis (sol.dualC01 s) =
          (Direction.reduced, |sol.dualC01 s|) := by
        rw [print_conclusions_sources_sensibility_analysis, if_pos hneg]
      exact List.mem_map.mpr ⟨s, hfil, by rw [hpr]⟩
    · have hnneg : ¬sol.dualC01 s < 0 := not_lt.mpr (le_of_lt hpos)
      have hpr : print_conclusions_sources_sensibility_analysis (sol.dualC01 s) =
          (Direction.increased, sol.dualC01 s) := by
        rw [print_conclusions_sources_sensibility_analysis, if_neg hnneg, if_pos hpos]
      exact List.mem_map.mpr ⟨s, hfil, by rw [hpr]⟩
    · have hnneg : ¬sol.dualC01 s < 0 := by
        rw [hzer]
        exact lt_irrefl 0
      have hnpos : ¬sol.dualC01 s > 0 := by
        rw [hzer]
        exact lt_irrefl 0
      have hpr : print_conclusions_sources_sensibility_analysis (sol.dualC01 s) =
          (Direction.noChange, 0) := by
        rw [print_conclusions_sources_sensibility_analysis, if_neg hnneg, if_neg hnpos]
      exact List.mem_map.mpr ⟨s, hfil, by rw [hpr]⟩

/-- Witness for C7: on wData with wSol, the source S is binding and the
dual of its capacity constraint is -2, so the emitted conclusion says
the cost is reduced by 2 per additional unit. -/
theorem claim_C7_witness :
    (sS, Direction.reduced, 2) ∈ sources_conclusions wData wSol := by
  have hbind : wData.pSourceProduction sS = source_shipped wData wSol.flows sS := by
    rw [wData_source_shipped]
    rfl
  exact ((claim_C7 wData wSol).2 sS (by decide) hbind).1 (by decide)

/-- C2 counterexample: on wData with wSolNeg the single customer K is
binding (demand 5, shipped 5) and the dual value of its demand
constraint is -3; the emitted conclusion reports the cost as reduced by
3 per additional unit of demand, not as increased, refuting the claimed
cost-direction wording for a negative dual. -/
theorem claim_C2_counterexample :
    customers_conclusions wData wSolNeg = [(sK, Direction.reduced, 3)] ∧
    Direction.reduced ≠ Direction.increased := by
  refine ⟨?_, by decide⟩
  rw [customers_conclusions]
  have hfil : (wData.sCustomers.filter fun c =>
      decide (wData.pCustomerDemand c = customer_shipped wData wSolNeg.flows c)) =
      wData.sCustomers := by
    rw [List.filter_eq_self]
    intro a ha
    have ha2 : a = sK := List.mem_singleton.mp ha
    subst ha2
    refine decide_eq_true ?_
    rw [wData_customer_shipped]
    rfl
  rw [hfil]
  decide

/-- C2 amended: a narrative conclusion is emitted for a customer exactly
when the customer is binding (demand equals shipped under exact
equality); for a binding customer the conclusion reuses the wording of
the capacity case unchanged: a negative dual value on the demand
constraint is reported as reducing the total cost by its absolute value
per additional unit of demand, a positive dual value as increasing it by
the dual value, and zero as no change. -/
theorem claim_C2_amended (d : ProblemData) (sol : Solution) :
    (∀ c, (∃ e ∈ customers_conclusions d sol, e.1 = c) ↔
      (c ∈ d.sCustomers ∧ d.pCustomerDemand c = customer_shipped d sol.flows c)) ∧
    (∀ c, c ∈ d.sCustomers → d.pCustomerDemand c = customer_shipped d sol.flows c →
      (sol.dualC02 c < 0 →
        (c, Direction.reduced, |sol.dualC02 c|) ∈ customers_conclusions d sol) ∧
      (0 < sol.dualC02 c →
        (c, Direction.increased, sol.dualC02 c) ∈ customers_conclusions d sol) ∧
      (sol.dualC02 c = 0 →
        (c, Direction.noChange, 0) ∈ customers_conclusions d sol)) := by
  constructor
  · intro c
    constructor
    · rintro ⟨e, he, rfl⟩
      rcases List.mem_map.mp he with ⟨a, ha, rfl⟩
      have h2 := List.mem_filter.mp ha
      exact ⟨h2.1, of_decide_eq_true h2.2⟩
    · rintro ⟨hmem, hbind⟩
      exact ⟨(c, print_conclusions_customers_sensibility_analysis (sol.dualC02 c)),
        List.mem_map.mpr ⟨c, List.mem_filter.mpr ⟨hmem, decide_eq_true hbind⟩, rfl⟩, rfl⟩
  · intro c hmem hbind
    have hfil : c ∈ d.sCustomers.filter (fun a =>
        decide (d.pCustomerDemand a = customer_shipped d sol.flows a)) :=
      List.mem_filter.mpr ⟨hmem, decide_eq_true hbind⟩
    refine ⟨fun hneg => ?_, fun hpos => ?_, fun hzer => ?_⟩
    · have hpr : print_conclusions_customers_sensibility_analysis (sol.dualC02 c) =
          (Direction.reduced, |sol.dualC02 c|) := by
        rw [print_conclusions_customers_sensibility_analysis, if_pos hneg]
      exact List.mem_map.mpr ⟨c, hfil, by rw [hpr]⟩
    · have hnneg : ¬sol.dualC02 c < 0 := not_lt.mpr (le_of_lt hpos)
      have hpr : print_conclusions_customers_sensibility_analysis (sol.dualC02 c) =
          (Direction.increased, sol.dualC02 c) := by
        rw [print_conclusions_customers_sensibility_analysis, if_neg hnneg, if_pos hpos]
      exact List.mem_map.mpr ⟨c, hfil, by rw [hpr]⟩
    · have hnneg : ¬sol.dualC02 c < 0 := by
        rw [hzer]
        exact lt_irrefl 0
      have hnpos : ¬sol.dualC02 c > 0 := by
        rw [hzer]
        exact lt_irrefl 0
      have hpr : print_conclusions_customers_sensibility_analysis (sol.dualC02 c) =
          (Direction.noChange, 0) := by
        rw [print_conclusions_customers_sensibility_analysis, if_neg hnneg, if_neg hnpos]
      exact List.mem_map.mpr ⟨c, hfil, by rw [hpr]⟩

/-- Witness for the amended C2: on wData with wSol, the customer K is
binding and the dual of its demand constraint is 3, so the emitted
conclusion says the cost increases by 3 per additional unit supplied. -/
theorem claim_C2_amended_witness :
    (sK, Direction.increased, 3) ∈ customers_conclusions wData wSol := by
  have hbind : wData.pCustomerDemand sK = customer_shipped wData wSol.flows sK := by
    rw [wData_customer_shipped]
    rfl
  exact ((claim_C2_amended wData wSol).2 sK (by decide) hbind).2.1 (by decide)

/-- C8: a narrative conclusion is emitted for a declared arc exactly
when its solved flow is exactly zero; for a zero-flow arc the conclusion
follows the three-way sign classification of the reduced cost of its
variable: negative means reduced by the absolute value (the negative
value is reported faithfully, not clamped), positive means increased by
the value, zero means no change. -/
theorem claim_C8 (d : ProblemData) (sol : Solution)
    (hint : ∀ p ∈ d.sSources_sCustomers, p.1 ∈ d.sSources ∧ p.2 ∈ d.sCustomers) :
    (∀ p, (∃ e ∈ routes_conclusions d sol, e.1 = p) ↔
      (p ∈ d.sSources_sCustomers ∧ sol.flows p = 0)) ∧
    (∀ p, p ∈ d.sSources_sCustomers → sol.flows p = 0 →
      (sol.rc p < 0 →
        (p, Direction.reduced, |sol.rc p|) ∈ routes_conclusions d sol) ∧
      (0 < sol.rc p →
        (p, Direction.increased, sol.rc p) ∈ routes_conclusions d sol) ∧
      (sol.rc p = 0 →
        (p, Direction.noChange, 0) ∈ routes_conclusions d sol)) := by
  constructor
  · intro p
    constructor
    · rintro ⟨e, he, rfl⟩
      rcases List.mem_map.mp he with ⟨a, ha, rfl⟩
      have h2 := List.mem_filter.mp ha
      exact ⟨(mem_routes_pairs d hint a).mp h2.1, of_decide_eq_true h2.2⟩
    · rintro ⟨hmem, hzero⟩
      exact ⟨(p, print_conclusions_routes_sensibility_analysis (sol.rc p)),
        List.mem_map.mpr ⟨p, List.mem_filter.mpr
          ⟨(mem_routes_pairs d hint p).mpr hmem, decide_eq_true hzero⟩, rfl⟩, rfl⟩
  · intro p hmem hzero
    have hfil : p ∈ (routes_pairs d).filter (fun a => decide (sol.flows a = 0)) :=
      List.mem_filter.mpr ⟨(mem_routes_pairs d hint p).mpr hmem, decide_eq_true hzero⟩
    refine ⟨fun hneg => ?_, fun hpos => ?_, fun hzer => ?_⟩
    · have hpr : print_conclusions_routes_sensibility_analysis (sol.rc p) =
          (Direction.reduced, |sol.rc p|) := by
        rw [print_conclusions_routes_sensibility_analysis, if_pos hneg]
      exact List.mem_map.mpr ⟨p, hfil, by rw [hpr]⟩
    · have hnneg : ¬sol.rc p < 0 := not_lt.mpr (le_of_lt hpos)
      have hpr : print_conclusions_routes_sensibility_analysis (sol.rc p) =
          (Direction.increased, sol.rc p) := by
        rw [print_conclusions_routes_sensibility_analysis, if_neg hnneg, if_pos hpos]
      exact List.mem_map.mpr ⟨p, hfil, by rw [hpr]⟩
    · have hnneg : ¬sol.rc p < 0 := by
        rw [hzer]
        exact lt_irrefl 0
      have hnpos : ¬sol.rc p > 0 := by
        rw [hzer]
        exact lt_irrefl 0
      have hpr : print_conclusions_routes_sensibility_analysis (sol.rc p) =
          (Direction.noChange, 0) := by
        rw [print_conclusions_routes_sensibility_analysis, if_neg hnneg, if_neg hnpos]
      exact List.mem_map.mpr ⟨p, hfil, by rw [hpr]⟩

/-- Witness for C8: on wData with wSolZero, the single arc carries no
flow and its reduced cost is -4; the emitted conclusion reports the cost
as reduced by 4, preserving the negative reduced cost faithfully. -/
theorem claim_C8_witness :
    ((sS, sK), Direction.reduced, 4) ∈ routes_conclusions wData wSolZero :=
  ((claim_C8 wData wSolZero (by decide)).2 (sS, sK) (by decide) rfl).1 (by decide)

end NetworkFlows
